import Mathlib

/-!
Verification development for the SMASH two-body scattering-action core.

The C++ source is embedded shallowly over exact rational arithmetic:
every `double` is modelled as a `ℚ`, `std::max(0., x)` as `max 0 x`,
and calls into external collaborators (the string-fragmentation
subsystem, the parametrization library, `std::sin` / `std::exp` /
`M_PI` from the C math library, and the random-number source) are
passed in as explicit oracle parameters, so that every definition is
computable and every theorem quantifies over all collaborator
behaviours.  Division is the total division of `ℚ` (with `x / 0 = 0`).
-/

namespace Smash

/-- GeV to fm conversion factor, from constants.h. -/
def hbarc : ℚ := 0.197327053

/-- mb to fm^2 conversion factor, from constants.h. -/
def fm2_mb : ℚ := 0.1

/-- Numerical error tolerance `really_small = 1.0e-6`, from constants.h. -/
def really_small : ℚ := 1 / 1000000

/-- Process kinds of collision branches (the closed enumeration used by
`ScatterAction`). -/
inductive ProcessType where
  | Elastic
  | TwoToOne
  | TwoToTwo
  | StringSoft
  | StringHard
deriving DecidableEq

/-- One candidate reaction channel: a cross-section weight, the process
kind, and the PDG codes of the outgoing particle types. -/
structure CollisionBranch where
  weight : ℚ
  ptype : ProcessType
  outgoing : List Int
deriving DecidableEq

/-! ## String excitation cross sections: the rebalancing algorithm

Embedding of the body of `ScatterAction::string_excitation_cross_sections`
(the branch taken when `sig_string_all > 0`).  The inputs `AX`, `XB`, `DD`
are the diffractive triple returned by
`string_process_->cross_sections_diffractive`, `A` is `sig_string_all`,
`hard_xsec` is the value of `string_hard_cross_section()`, and `expO` is
the C library exponential.  Each local variable of the source becomes a
named definition so the data flow can be traced step by step. -/

/-- Local `single_diffr = single_diffr_AX + single_diffr_XB` of the source. -/
def single_diffr (AX XB : ℚ) : ℚ := AX + XB

/-- Local `diffractive = single_diffr + double_diffr` of the source
(the value before rebalancing). -/
def diffr_initial (AX XB DD : ℚ) : ℚ := single_diffr AX XB + DD

/-- Local `nondiffractive_all = std::max(0., sig_string_all - diffractive)`. -/
def nondiffractive_all (A AX XB DD : ℚ) : ℚ := max 0 (A - diffr_initial AX XB DD)

/-- Reassigned local `diffractive = sig_string_all - nondiffractive_all`. -/
def diffr_rebalanced (A AX XB DD : ℚ) : ℚ := A - nondiffractive_all A AX XB DD

/-- Reassigned local `double_diffr = std::max(0., diffractive - single_diffr)`. -/
def double_diffr_rebalanced (A AX XB DD : ℚ) : ℚ :=
  max 0 (diffr_rebalanced A AX XB DD - single_diffr AX XB)

/-- Local `a = (diffractive - double_diffr) / single_diffr`: the factor by
which both single-diffractive pieces are rescaled.  The source divides by
`single_diffr` with no guard against `single_diffr == 0`. -/
def rescale_factor (A AX XB DD : ℚ) : ℚ :=
  (diffr_rebalanced A AX XB DD - double_diffr_rebalanced A AX XB DD) /
    single_diffr AX XB

/-- Local `nondiffractive_soft = nondiffractive_all *
std::exp(-hard_xsec / nondiffractive_all)`; `expO` stands for `std::exp`. -/
def nondiffractive_soft_piece (expO : ℚ → ℚ) (A hard_xsec AX XB DD : ℚ) : ℚ :=
  nondiffractive_all A AX XB DD *
    expO (-hard_xsec / nondiffractive_all A AX XB DD)

/-- The five rebalanced string sub-cross-sections. -/
structure StringPieces where
  single_diffr_AX : ℚ
  single_diffr_XB : ℚ
  double_diffr : ℚ
  nondiffractive_soft : ℚ
  nondiffractive_hard : ℚ
deriving DecidableEq

/-- The five-piece partition computed inside
`ScatterAction::string_excitation_cross_sections` when the aggregate
string cross-section is positive: the rebalanced single-diffractive
pieces `AX * a`, `XB * a`, the rebalanced double-diffractive piece, and
the soft/hard split `nondiffractive_hard = nondiffractive_all -
nondiffractive_soft` of the non-diffractive remainder. -/
def string_pieces (expO : ℚ → ℚ) (A hard_xsec AX XB DD : ℚ) : StringPieces where
  single_diffr_AX := AX * rescale_factor A AX XB DD
  single_diffr_XB := XB * rescale_factor A AX XB DD
  double_diffr := double_diffr_rebalanced A AX XB DD
  nondiffractive_soft := nondiffractive_soft_piece expO A hard_xsec AX XB DD
  nondiffractive_hard :=
    nondiffractive_all A AX XB DD - nondiffractive_soft_piece expO A hard_xsec AX XB DD

/-- Sum of the five pieces, the quantity checked by the source's assert. -/
def string_pieces_sum (p : StringPieces) : ℚ :=
  p.single_diffr_AX + p.single_diffr_XB + p.double_diffr +
    p.nondiffractive_soft + p.nondiffractive_hard

/-- The non-diffractive remainder never exceeds the aggregate. -/
theorem nondiffractive_all_le (A AX XB DD : ℚ) (hA : 0 < A)
    (hAX : 0 ≤ AX) (hXB : 0 ≤ XB) (hDD : 0 ≤ DD) :
    nondiffractive_all A AX XB DD ≤ A := by
  simp only [nondiffractive_all, diffr_initial, single_diffr]
  exact max_le hA.le (by linarith)

/-- The five pieces sum to the aggregate exactly, for every oracle and
every admissible input. -/
theorem string_pieces_sum_eq (expO : ℚ → ℚ) (A hard_xsec AX XB DD : ℚ)
    (hA : 0 < A) (hAX : 0 ≤ AX) (hXB : 0 ≤ XB) (hDD : 0 ≤ DD) :
    string_pieces_sum (string_pieces expO A hard_xsec AX XB DD) = A := by
  have hnd := nondiffractive_all_le A AX XB DD hA hAX hXB hDD
  simp only [string_pieces_sum, string_pieces, nondiffractive_soft_piece]
  by_cases hsd : AX + XB = 0
  · have hAX0 : AX = 0 := by linarith
    have hXB0 : XB = 0 := by linarith
    subst hAX0
    subst hXB0
    have hdd : double_diffr_rebalanced A 0 0 DD =
        A - nondiffractive_all A 0 0 DD := by
      simp only [double_diffr_rebalanced, diffr_rebalanced, single_diffr,
        add_zero, sub_zero]
      exact max_eq_right (by linarith)
    rw [hdd]
    ring
  · have hkey : (AX + XB) * rescale_factor A AX XB DD =
        diffr_rebalanced A AX XB DD - double_diffr_rebalanced A AX XB DD := by
      simp only [rescale_factor, single_diffr]
      field_simp
    have hexp : AX * rescale_factor A AX XB DD + XB * rescale_factor A AX XB DD =
        (AX + XB) * rescale_factor A AX XB DD := by ring
    have hd2 : diffr_rebalanced A AX XB DD =
        A - nondiffractive_all A AX XB DD := rfl
    linarith [hkey, hexp, hd2]

/-- C1: for every aggregate string cross-section `A > 0` and every
non-negative diffractive triple `(AX, XB, DD)` returned by the string
collaborator, the five rebalanced pieces computed by
`string_excitation_cross_sections` sum to `A` within `1e-6` absolute
tolerance (in fact exactly, in the exact-arithmetic embedding). -/
theorem string_partition_invariant (expO : ℚ → ℚ) (A hard_xsec AX XB DD : ℚ)
    (hA : 0 < A) (hAX : 0 ≤ AX) (hXB : 0 ≤ XB) (hDD : 0 ≤ DD) :
    |string_pieces_sum (string_pieces expO A hard_xsec AX XB DD) - A| <
      1 / 1000000 := by
  rw [string_pieces_sum_eq expO A hard_xsec AX XB DD hA hAX hXB hDD,
    sub_self, abs_zero]
  norm_num

/-- Witness for C1 at a concrete input. -/
theorem string_partition_invariant_witness :
    |string_pieces_sum (string_pieces (fun _ => 1) 1 0 2 3 4) - 1| <
      1 / 1000000 :=
  string_partition_invariant (fun _ => 1) 1 0 2 3 4 (by norm_num)
    (by norm_num) (by norm_num) (by norm_num)

/-- Helper for the overflow case: the value `diffractive - double_diffr`
fed to the rescale division equals `min A (AX + XB)` there. -/
theorem rescale_numerator_overflow (A AX XB DD : ℚ)
    (hover : A < AX + XB + DD) :
    diffr_rebalanced A AX XB DD - double_diffr_rebalanced A AX XB DD =
      min A (AX + XB) := by
  have hnd : nondiffractive_all A AX XB DD = 0 := by
    simp only [nondiffractive_all, diffr_initial, single_diffr]
    exact max_eq_left (by linarith)
  have hd2 : diffr_rebalanced A AX XB DD = A := by
    simp only [diffr_rebalanced, hnd, sub_zero]
  rw [hd2]
  simp only [double_diffr_rebalanced, hd2, single_diffr]
  rcases le_total (AX + XB) A with h | h
  · rw [max_eq_right (by linarith), min_eq_right h]
    ring
  · rw [max_eq_left (by linarith), min_eq_left h]
    ring

/-- C3: when the diffractive sum returned by the collaborator exceeds the
aggregate, the rebalancing zeroes the non-diffractive pieces and shrinks
the single-diffractive pieces by a common factor in `[0, 1]` until
`double-diffractive + single-diffractive` equals the aggregate; otherwise
the remainder `A - (AX + XB + DD)` becomes the non-diffractive piece. -/
theorem string_rebalancing_cases (expO : ℚ → ℚ) (A hard_xsec AX XB DD : ℚ)
    (hA : 0 < A) (hAX : 0 ≤ AX) (hXB : 0 ≤ XB) (hDD : 0 ≤ DD) :
    (A < AX + XB + DD →
      (string_pieces expO A hard_xsec AX XB DD).nondiffractive_soft = 0 ∧
      (string_pieces expO A hard_xsec AX XB DD).nondiffractive_hard = 0 ∧
      (string_pieces expO A hard_xsec AX XB DD).double_diffr +
        (string_pieces expO A hard_xsec AX XB DD).single_diffr_AX +
        (string_pieces expO A hard_xsec AX XB DD).single_diffr_XB = A ∧
      ∃ a : ℚ, 0 ≤ a ∧ a ≤ 1 ∧
        (string_pieces expO A hard_xsec AX XB DD).single_diffr_AX = a * AX ∧
        (string_pieces expO A hard_xsec AX XB DD).single_diffr_XB = a * XB) ∧
    (AX + XB + DD ≤ A →
      (string_pieces expO A hard_xsec AX XB DD).nondiffractive_soft +
        (string_pieces expO A hard_xsec AX XB DD).nondiffractive_hard =
        A - (AX + XB + DD)) := by
  constructor
  · intro hover
    have hnd : nondiffractive_all A AX XB DD = 0 := by
      simp only [nondiffractive_all, diffr_initial, single_diffr]
      exact max_eq_left (by linarith)
    have hsum := string_pieces_sum_eq expO A hard_xsec AX XB DD hA hAX hXB hDD
    have hsoft : (string_pieces expO A hard_xsec AX XB DD).nondiffractive_soft = 0 := by
      simp only [string_pieces, nondiffractive_soft_piece, hnd, zero_mul]
    have hhard : (string_pieces expO A hard_xsec AX XB DD).nondiffractive_hard = 0 := by
      simp only [string_pieces, nondiffractive_soft_piece, hnd, zero_mul, sub_zero]
    refine ⟨hsoft, hhard, ?_, ?_⟩
    · simp only [string_pieces_sum] at hsum
      linarith [hsum, hsoft, hhard]
    · by_cases hsd : AX + XB = 0
      · have hAX0 : AX = 0 := by linarith
        have hXB0 : XB = 0 := by linarith
        refine ⟨0, le_refl 0, by norm_num, ?_, ?_⟩
        · simp only [string_pieces, hAX0, zero_mul, mul_zero]
        · simp only [string_pieces, hXB0, zero_mul, mul_zero]
      · have hsdpos : 0 < AX + XB := lt_of_le_of_ne (by linarith) (Ne.symm hsd)
        refine ⟨rescale_factor A AX XB DD, ?_, ?_, mul_comm AX _, mul_comm XB _⟩
        · simp only [rescale_factor, single_diffr,
            rescale_numerator_overflow A AX XB DD hover]
          exact div_nonneg (le_min hA.le (by linarith)) (by linarith)
        · simp only [rescale_factor, single_diffr,
            rescale_numerator_overflow A AX XB DD hover]
          rw [div_le_one hsdpos]
          exact min_le_right A (AX + XB)
  · intro hund
    have hnd : nondiffractive_all A AX XB DD = A - (AX + XB + DD) := by
      simp only [nondiffractive_all, diffr_initial, single_diffr]
      exact max_eq_right (by linarith)
    simp only [string_pieces, nondiffractive_soft_piece, hnd]
    ring

/-- Witness for C3 at a concrete overflowing input. -/
theorem string_rebalancing_cases_witness :
    (string_pieces (fun _ => 1) 1 0 2 0 0).nondiffractive_soft = 0 ∧
    (string_pieces (fun _ => 1) 1 0 2 0 0).nondiffractive_hard = 0 ∧
    (string_pieces (fun _ => 1) 1 0 2 0 0).double_diffr +
      (string_pieces (fun _ => 1) 1 0 2 0 0).single_diffr_AX +
      (string_pieces (fun _ => 1) 1 0 2 0 0).single_diffr_XB = 1 ∧
    ∃ a : ℚ, 0 ≤ a ∧ a ≤ 1 ∧
      (string_pieces (fun _ => 1) 1 0 2 0 0).single_diffr_AX = a * 2 ∧
      (string_pieces (fun _ => 1) 1 0 2 0 0).single_diffr_XB = a * 0 :=
  (string_rebalancing_cases (fun _ => 1) 1 0 2 0 0 (by norm_num) (by norm_num)
    (by norm_num) (by norm_num)).1 (by norm_num)

/-- C9: the proportional-rescale division is reachable with a zero
divisor.  There is an input with positive aggregate and non-negative
diffractive triple on which the guarded branch is taken, the divisor
`single_diffr` is `0`, and `rescale_factor` is literally a division by
`0` there; the source has no special case for `single_diffr == 0`. -/
theorem rescale_division_by_zero_reachable :
    ∃ A AX XB DD : ℚ, 0 < A ∧ 0 ≤ AX ∧ 0 ≤ XB ∧ 0 ≤ DD ∧
      single_diffr AX XB = 0 ∧
      rescale_factor A AX XB DD =
        (diffr_rebalanced A AX XB DD - double_diffr_rebalanced A AX XB DD) / 0 := by
  refine ⟨1, 0, 0, 0, by norm_num, le_refl 0, le_refl 0, le_refl 0, ?_, ?_⟩
  · simp [single_diffr]
  · simp [rescale_factor, single_diffr]

/-! ## The regime mixer of `ScatterAction::add_all_processes`

Particle types are modelled by the catalog facts the routine reads:
nucleon and pion flags, the antiparticle sign, and the PDG code.  The
probability formula uses `std::sin` and `M_PI`, passed in as the oracles
`sinO` and `piO`. -/

/-- Catalog facts about a particle type that `add_all_processes`,
`two_to_one_formation` and `resonance_cross_sections` read. -/
structure ParticleType where
  is_nucleon : Bool
  is_pion : Bool
  antiparticle_sign : Int
  pdg : Int
  charge : Int
  baryon_number : Int
  spin : Nat
  is_stable : Bool
deriving DecidableEq

/-- Local `both_are_nucleons` of `add_all_processes`. -/
def both_are_nucleons (t1 t2 : ParticleType) : Bool :=
  t1.is_nucleon && t2.is_nucleon

/-- The pion-nucleon test of `add_all_processes`. -/
def pion_nucleon (t1 t2 : ParticleType) : Bool :=
  (t1.is_pion && t2.is_nucleon) || (t1.is_nucleon && t2.is_pion)

/-- Local `include_pythia`: set for nucleon-nucleon and pion-nucleon pairs. -/
def include_pythia (t1 t2 : ParticleType) : Bool :=
  both_are_nucleons t1 t2 || pion_nucleon t1 t2

/-- Local `mix_scatter_type_energy`: 4.5 for nucleon-nucleon, 2.05 for
pion-nucleon.  In the source the variable is left uninitialized for other
pairs and is then never read because `enable_pythia` is false; the
embedding uses 0 for that dead case. -/
def mix_scatter_type_energy (t1 t2 : ParticleType) : ℚ :=
  if both_are_nucleons t1 t2 then 4.5
  else if pion_nucleon t1 t2 then 2.05
  else 0

/-- Local `mix_scatter_type_window_width`: 0.5 for nucleon-nucleon, 0.15
for pion-nucleon, with the same dead-case convention. -/
def mix_scatter_type_window_width (t1 t2 : ParticleType) : ℚ :=
  if both_are_nucleons t1 t2 then 0.5
  else if pion_nucleon t1 t2 then 0.15
  else 0

/-- Local `probability_pythia = 0.5 + 0.5 * sin(0.5 * M_PI *
(sqrt_s - mix_scatter_type_energy) / mix_scatter_type_window_width)`. -/
def probability_pythia (sinO : ℚ → ℚ) (piO sqrt_s mixE mixW : ℚ) : ℚ :=
  0.5 + 0.5 * sinO (0.5 * piO * (sqrt_s - mixE) / mixW)

/-- Local `is_pythia` of `add_all_processes`: true above the mixing
window, false below it, and inside the window decided by one comparison
of `probability_pythia` with the single uniform draw `u` made for this
action instance. -/
def is_pythia_decision (sinO : ℚ → ℚ) (piO : ℚ) (t1 t2 : ParticleType)
    (sqrt_s : ℚ) (strings_switch : Bool) (u : ℚ) : Bool :=
  if strings_switch && include_pythia t1 t2 then
    if sqrt_s > mix_scatter_type_energy t1 t2 + mix_scatter_type_window_width t1 t2 then
      true
    else if sqrt_s > mix_scatter_type_energy t1 t2 - mix_scatter_type_window_width t1 t2 then
      decide (probability_pythia sinO piO sqrt_s (mix_scatter_type_energy t1 t2)
        (mix_scatter_type_window_width t1 t2) > u)
    else false
  else false

/-- Branch families registered by `add_all_processes`, one tag per
`add_collision` / `add_collisions` call site. -/
inductive BranchFamily where
  | elastic
  | stringExcitation
  | resonance
  | twoToTwo
  | nnbarAnnihilation
  | nnbarCreation
deriving DecidableEq

/-- PDG code of `pdg::rho_z`. -/
def pdg_rho_z : Int := 113

/-- PDG code of `pdg::h1`. -/
def pdg_h1 : Int := 10223

/-- Embedding of `ScatterAction::add_all_processes`: which branch
families are registered, in source order.  `u` is the uniform random
number drawn for the mixed-regime Bernoulli decision,
`incl_elastic` is `included_2to2[IncludedReactions::Elastic]`,
`incl_2to2_any` is `included_2to2.any()`, and `nnbar_resonances` is
`nnbar_treatment == NNbarTreatment::Resonances`. -/
def add_all_processes (sinO : ℚ → ℚ) (piO : ℚ) (t1 t2 : ParticleType)
    (sqrt_s u : ℚ) (incl_elastic two_to_one incl_2to2_any : Bool)
    (low_snn_cut : ℚ) (strings_switch nnbar_resonances : Bool) :
    List BranchFamily :=
  (if incl_elastic &&
      !(both_are_nucleons t1 t2 &&
        (t1.antiparticle_sign == t2.antiparticle_sign) &&
        decide (sqrt_s < low_snn_cut)) then
    [BranchFamily.elastic]
  else []) ++
  (if is_pythia_decision sinO piO t1 t2 sqrt_s strings_switch u then
    [BranchFamily.stringExcitation]
  else
    (if two_to_one then [BranchFamily.resonance] else []) ++
    (if incl_2to2_any then [BranchFamily.twoToTwo] else [])) ++
  (if nnbar_resonances && t1.is_nucleon && (t2.pdg == -t1.pdg) then
    [BranchFamily.nnbarAnnihilation]
  else []) ++
  (if nnbar_resonances &&
      ((t1.pdg == pdg_rho_z && t2.pdg == pdg_h1) ||
       (t1.pdg == pdg_h1 && t2.pdg == pdg_rho_z)) then
    [BranchFamily.nnbarCreation]
  else [])

/-- The string-excitation family is registered exactly when the
`is_pythia` draw came out true. -/
theorem stringExcitation_mem_iff (sinO : ℚ → ℚ) (piO : ℚ)
    (t1 t2 : ParticleType) (sqrt_s u : ℚ)
    (incl_elastic two_to_one incl_2to2_any : Bool) (low_snn_cut : ℚ)
    (strings_switch nnbar_resonances : Bool) :
    BranchFamily.stringExcitation ∈
      add_all_processes sinO piO t1 t2 sqrt_s u incl_elastic two_to_one
        incl_2to2_any low_snn_cut strings_switch nnbar_resonances ↔
    is_pythia_decision sinO piO t1 t2 sqrt_s strings_switch u = true := by
  simp only [add_all_processes, List.mem_append]
  split_ifs <;> simp_all

/-- The resonance-formation family is registered exactly when the
`is_pythia` draw came out false and 2-to-1 processes are enabled. -/
theorem resonance_mem_iff (sinO : ℚ → ℚ) (piO : ℚ)
    (t1 t2 : ParticleType) (sqrt_s u : ℚ)
    (incl_elastic two_to_one incl_2to2_any : Bool) (low_snn_cut : ℚ)
    (strings_switch nnbar_resonances : Bool) :
    BranchFamily.resonance ∈
      add_all_processes sinO piO t1 t2 sqrt_s u incl_elastic two_to_one
        incl_2to2_any low_snn_cut strings_switch nnbar_resonances ↔
    (is_pythia_decision sinO piO t1 t2 sqrt_s strings_switch u = false ∧
      two_to_one = true) := by
  simp only [add_all_processes, List.mem_append]
  split_ifs <;> simp_all

/-- The inelastic 2-to-2 family is registered exactly when the
`is_pythia` draw came out false and some 2-to-2 reaction is included. -/
theorem twoToTwo_mem_iff (sinO : ℚ → ℚ) (piO : ℚ)
    (t1 t2 : ParticleType) (sqrt_s u : ℚ)
    (incl_elastic two_to_one incl_2to2_any : Bool) (low_snn_cut : ℚ)
    (strings_switch nnbar_resonances : Bool) :
    BranchFamily.twoToTwo ∈
      add_all_processes sinO piO t1 t2 sqrt_s u incl_elastic two_to_one
        incl_2to2_any low_snn_cut strings_switch nnbar_resonances ↔
    (is_pythia_decision sinO piO t1 t2 sqrt_s strings_switch u = false ∧
      incl_2to2_any = true) := by
  simp only [add_all_processes, List.mem_append]
  split_ifs <;> simp_all

/-- C2: for a nucleon-nucleon pair with strings enabled, the action uses
string fragmentation above the 5.0 GeV threshold, resonance and 2-to-2
physics below 4.0 GeV, and in between decides string treatment by the
single Bernoulli draw `u` compared against
`0.5 + 0.5 * sin(pi / 2 * (sqrt_s - 4.5) / 0.5)`; pairs that are neither
nucleon-nucleon nor pion-nucleon never register string branches. -/
theorem add_all_processes_regime_mixer (sinO : ℚ → ℚ) (piO : ℚ)
    (t1 t2 : ParticleType) (sqrt_s u : ℚ)
    (incl_elastic two_to_one incl_2to2_any : Bool) (low_snn_cut : ℚ)
    (nnbar_resonances : Bool) :
    (t1.is_nucleon = true → t2.is_nucleon = true →
      ((5 < sqrt_s →
        is_pythia_decision sinO piO t1 t2 sqrt_s true u = true) ∧
       (sqrt_s < 4 →
        is_pythia_decision sinO piO t1 t2 sqrt_s true u = false) ∧
       (4 < sqrt_s → sqrt_s ≤ 5 →
        is_pythia_decision sinO piO t1 t2 sqrt_s true u =
          decide (0.5 + 0.5 * sinO (0.5 * piO * (sqrt_s - 4.5) / 0.5) > u)) ∧
       (5 < sqrt_s →
        BranchFamily.stringExcitation ∈
          add_all_processes sinO piO t1 t2 sqrt_s u incl_elastic two_to_one
            incl_2to2_any low_snn_cut true nnbar_resonances ∧
        BranchFamily.resonance ∉
          add_all_processes sinO piO t1 t2 sqrt_s u incl_elastic two_to_one
            incl_2to2_any low_snn_cut true nnbar_resonances ∧
        BranchFamily.twoToTwo ∉
          add_all_processes sinO piO t1 t2 sqrt_s u incl_elastic two_to_one
            incl_2to2_any low_snn_cut true nnbar_resonances) ∧
       (sqrt_s < 4 →
        BranchFamily.stringExcitation ∉
          add_all_processes sinO piO t1 t2 sqrt_s u incl_elastic two_to_one
            incl_2to2_any low_snn_cut true nnbar_resonances ∧
        (two_to_one = true →
          BranchFamily.resonance ∈
            add_all_processes sinO piO t1 t2 sqrt_s u incl_elastic two_to_one
              incl_2to2_any low_snn_cut true nnbar_resonances) ∧
        (incl_2to2_any = true →
          BranchFamily.twoToTwo ∈
            add_all_processes sinO piO t1 t2 sqrt_s u incl_elastic two_to_one
              incl_2to2_any low_snn_cut true nnbar_resonances)))) ∧
    (both_are_nucleons t1 t2 = false → pion_nucleon t1 t2 = false →
      ∀ strings_switch : Bool,
        BranchFamily.stringExcitation ∉
          add_all_processes sinO piO t1 t2 sqrt_s u incl_elastic two_to_one
            incl_2to2_any low_snn_cut strings_switch nnbar_resonances) := by
  constructor
  · intro h1 h2
    have hbn : both_are_nucleons t1 t2 = true := by
      simp [both_are_nucleons, h1, h2]
    have hip : include_pythia t1 t2 = true := by
      simp [include_pythia, hbn]
    have hE : mix_scatter_type_energy t1 t2 = 4.5 := by
      simp [mix_scatter_type_energy, hbn]
    have hW : mix_scatter_type_window_width t1 t2 = 0.5 := by
      simp [mix_scatter_type_window_width, hbn]
    have hhigh : ∀ hs : 5 < sqrt_s,
        is_pythia_decision sinO piO t1 t2 sqrt_s true u = true := by
      intro hs
      simp only [is_pythia_decision, hip, hE, hW, Bool.and_self, if_true]
      rw [if_pos (by norm_num; linarith)]
    have hlow : ∀ hs : sqrt_s < 4,
        is_pythia_decision sinO piO t1 t2 sqrt_s true u = false := by
      intro hs
      simp only [is_pythia_decision, hip, hE, hW, Bool.and_self, if_true]
      rw [if_neg (by norm_num; linarith), if_neg (by norm_num; linarith)]
    refine ⟨hhigh, hlow, ?_, ?_, ?_⟩
    · intro hs4 hs5
      simp only [is_pythia_decision, hip, hE, hW, Bool.and_self, if_true,
        probability_pythia]
      rw [if_neg (by norm_num; linarith), if_pos (by norm_num; linarith)]
    · intro hs
      refine ⟨(stringExcitation_mem_iff _ _ _ _ _ _ _ _ _ _ _ _).2 (hhigh hs), ?_, ?_⟩
      · intro hmem
        have := ((resonance_mem_iff _ _ _ _ _ _ _ _ _ _ _ _).1 hmem).1
        rw [hhigh hs] at this
        exact Bool.noConfusion this
      · intro hmem
        have := ((twoToTwo_mem_iff _ _ _ _ _ _ _ _ _ _ _ _).1 hmem).1
        rw [hhigh hs] at this
        exact Bool.noConfusion this
    · intro hs
      refine ⟨?_, ?_, ?_⟩
      · intro hmem
        have := (stringExcitation_mem_iff _ _ _ _ _ _ _ _ _ _ _ _).1 hmem
        rw [hlow hs] at this
        exact Bool.noConfusion this
      · intro h21
        exact (resonance_mem_iff _ _ _ _ _ _ _ _ _ _ _ _).2 ⟨hlow hs, h21⟩
      · intro h22
        exact (twoToTwo_mem_iff _ _ _ _ _ _ _ _ _ _ _ _).2 ⟨hlow hs, h22⟩
  · intro hbn hpn strings_switch hmem
    have := (stringExcitation_mem_iff _ _ _ _ _ _ _ _ _ _ _ _).1 hmem
    simp only [is_pythia_decision, include_pythia, hbn, hpn, Bool.or_self,
      Bool.and_false, Bool.false_eq_true, if_false] at this

/-- Witness for C2: concrete nucleon-nucleon pair at 6 GeV uses strings,
and a concrete pion-pion pair never does. -/
theorem add_all_processes_regime_mixer_witness :
    is_pythia_decision (fun _ => 0) 0
      ⟨true, false, 1, 2212, 1, 1, 1, true⟩
      ⟨true, false, 1, 2212, 1, 1, 1, true⟩ 6 true (1/2) = true ∧
    BranchFamily.stringExcitation ∉
      add_all_processes (fun _ => 0) 0
        ⟨false, true, 1, 211, 1, 0, 0, true⟩
        ⟨false, true, 1, 211, 1, 0, 0, true⟩ 6 (1/2) true true true 1.9
        true false :=
  ⟨((add_all_processes_regime_mixer (fun _ => 0) 0
      ⟨true, false, 1, 2212, 1, 1, 1, true⟩
      ⟨true, false, 1, 2212, 1, 1, 1, true⟩ 6 (1/2) true true true 1.9
      false).1 rfl rfl).1 (by norm_num),
   (add_all_processes_regime_mixer (fun _ => 0) 0
      ⟨false, true, 1, 211, 1, 0, 0, true⟩
      ⟨false, true, 1, 211, 1, 0, 0, true⟩ 6 (1/2) true true true 1.9
      false).2 (by decide) (by decide) true⟩

/-- Membership of the elastic family, at the level of the source's
boolean condition. -/
theorem elastic_mem_iff_cond (sinO : ℚ → ℚ) (piO : ℚ)
    (t1 t2 : ParticleType) (sqrt_s u : ℚ)
    (incl_elastic two_to_one incl_2to2_any : Bool) (low_snn_cut : ℚ)
    (strings_switch nnbar_resonances : Bool) :
    BranchFamily.elastic ∈
      add_all_processes sinO piO t1 t2 sqrt_s u incl_elastic two_to_one
        incl_2to2_any low_snn_cut strings_switch nnbar_resonances ↔
    (incl_elastic &&
      !(both_are_nucleons t1 t2 &&
        (t1.antiparticle_sign == t2.antiparticle_sign) &&
        decide (sqrt_s < low_snn_cut))) = true := by
  simp only [add_all_processes, List.mem_append]
  split_ifs <;> simp_all

/-- C8: the elastic branch is registered if and only if elastic
reactions are enabled and the pair is not a nucleon-nucleon pair of the
same antiparticle sign below the configured `low_snn_cut`. -/
theorem add_all_processes_elastic_cutoff (sinO : ℚ → ℚ) (piO : ℚ)
    (t1 t2 : ParticleType) (sqrt_s u : ℚ)
    (incl_elastic two_to_one incl_2to2_any : Bool) (low_snn_cut : ℚ)
    (strings_switch nnbar_resonances : Bool) :
    BranchFamily.elastic ∈
      add_all_processes sinO piO t1 t2 sqrt_s u incl_elastic two_to_one
        incl_2to2_any low_snn_cut strings_switch nnbar_resonances ↔
    (incl_elastic = true ∧
      ¬(both_are_nucleons t1 t2 = true ∧
        t1.antiparticle_sign = t2.antiparticle_sign ∧
        sqrt_s < low_snn_cut)) := by
  rw [elastic_mem_iff_cond sinO piO t1 t2 sqrt_s u incl_elastic two_to_one
    incl_2to2_any low_snn_cut strings_switch nnbar_resonances]
  simp only [Bool.and_eq_true, Bool.not_eq_true', Bool.eq_false_iff, ne_eq,
    beq_iff_eq, decide_eq_true_eq]
  tauto

/-! ## Formation-time and suppression-factor propagation

Both `ScatterAction::string_excitation_pythia` and
`ScatterAction::string_excitation_soft` end with the identical block that
adjusts the outgoing particles when an incoming particle was still
unformed; `adjust_formation` embeds that shared block.  Only the fields
the block reads and writes are modelled. -/

/-- The formation state of a particle: its formation time and its cross
section scaling (suppression) factor. -/
structure ParticleData where
  formation_time : ℚ
  cross_section_scaling_factor : ℚ
deriving DecidableEq

/-- Embedding of the unformed-incoming adjustment block shared by
`string_excitation_pythia` and `string_excitation_soft`: when
`tform_in = max` of the incoming formation times exceeds the execution
time, every outgoing scaling factor is multiplied by the factor `fin` of
the later-forming incoming particle and every outgoing formation time
below `tform_in` is overwritten by it. -/
def adjust_formation (in0 in1 : ParticleData) (time_of_execution : ℚ)
    (outgoing : List ParticleData) : List ParticleData :=
  if max in0.formation_time in1.formation_time > time_of_execution then
    outgoing.map fun p =>
      { formation_time :=
          if max in0.formation_time in1.formation_time > p.formation_time then
            max in0.formation_time in1.formation_time
          else p.formation_time
        cross_section_scaling_factor :=
          (if in0.formation_time > in1.formation_time then
            in0.cross_section_scaling_factor
          else in1.cross_section_scaling_factor) * p.cross_section_scaling_factor }
  else outgoing

/-- C5: if either incoming particle is still forming at the execution
time, then there is a still-forming incoming particle `q` (the
later-forming one) such that every outgoing particle's suppression
factor becomes `q`'s factor times its previously assigned factor, and
every outgoing formation time is raised to at least `q`'s formation
time (it becomes the max of the two). -/
theorem adjust_formation_propagates (in0 in1 : ParticleData) (T : ℚ)
    (outs : List ParticleData)
    (h : T < in0.formation_time ∨ T < in1.formation_time) :
    ∃ q : ParticleData, (q = in0 ∨ q = in1) ∧ T < q.formation_time ∧
      adjust_formation in0 in1 T outs =
        outs.map fun p =>
          { formation_time := max q.formation_time p.formation_time
            cross_section_scaling_factor :=
              q.cross_section_scaling_factor * p.cross_section_scaling_factor } := by
  have hmax : max in0.formation_time in1.formation_time > T := lt_max_iff.2 h
  by_cases h01 : in0.formation_time > in1.formation_time
  · have hm : max in0.formation_time in1.formation_time = in0.formation_time :=
      max_eq_left h01.le
    refine ⟨in0, Or.inl rfl, by rw [← hm]; exact hmax, ?_⟩
    rw [adjust_formation, if_pos hmax]
    refine List.map_congr_left fun p _ => ?_
    rw [hm, if_pos h01]
    congr 1
    rcases le_or_lt in0.formation_time p.formation_time with hle | hlt
    · rw [if_neg (not_lt.2 hle), max_eq_right hle]
    · rw [if_pos hlt, max_eq_left hlt.le]
  · have hm : max in0.formation_time in1.formation_time = in1.formation_time :=
      max_eq_right (not_lt.1 h01)
    refine ⟨in1, Or.inr rfl, by rw [← hm]; exact hmax, ?_⟩
    rw [adjust_formation, if_pos hmax]
    refine List.map_congr_left fun p _ => ?_
    rw [hm, if_neg h01]
    congr 1
    rcases le_or_lt in1.formation_time p.formation_time with hle | hlt
    · rw [if_neg (not_lt.2 hle), max_eq_right hle]
    · rw [if_pos hlt, max_eq_left hlt.le]

/-- Witness for C5 at a concrete input. -/
theorem adjust_formation_propagates_witness :
    ∃ q : ParticleData,
      (q = (⟨2, 1/2⟩ : ParticleData) ∨ q = (⟨0, 1⟩ : ParticleData)) ∧
      (1 : ℚ) < q.formation_time ∧
      adjust_formation ⟨2, 1/2⟩ ⟨0, 1⟩ 1 [⟨0, 1/3⟩] =
        ([(⟨0, 1/3⟩ : ParticleData)]).map fun p =>
          { formation_time := max q.formation_time p.formation_time
            cross_section_scaling_factor :=
              q.cross_section_scaling_factor * p.cross_section_scaling_factor } :=
  adjust_formation_propagates ⟨2, 1/2⟩ ⟨0, 1⟩ 1 [⟨0, 1/3⟩] (Or.inl (by norm_num))

/-! ## The soft-string retry loop of `ScatterAction::string_excitation_soft`

The subprocess sampling calls `next_SDiff(true)`, `next_SDiff(false)`,
`next_DDiff()`, `next_NDiffSoft()` of the string collaborator are one
oracle `next : ℕ → ℕ → Bool`: `next iproc k` is the success flag of the
`k`-th call for subprocess `iproc`.  The collaborator's final state is
the oracle list `final_state`. -/

/-- Retry bound `ntry_max` of the source. -/
def ntry_max : ℕ := 10000

/-- Embedding of the loop `while (!success && ntry < ntry_max) { ntry++;
success = <attempt ntry>; }`, returning the final `(ntry, success)`.
`fuel` bounds the recursion; with `fuel = ntry_max` it never runs out
before the loop condition fails. -/
def soft_loop (attempt : ℕ → Bool) : ℕ → ℕ → Bool → ℕ × Bool
  | 0, ntry, success => (ntry, success)
  | fuel + 1, ntry, success =>
    if success = false ∧ ntry < ntry_max then
      soft_loop attempt fuel (ntry + 1) (attempt (ntry + 1))
    else (ntry, success)

/-- Embedding of the subprocess-selection loop: the first
`iproc ∈ {0,1,2,3}` whose cumulative window contains `r_xsec`. -/
def select_subprocess (sums : ℕ → ℚ) (r_xsec : ℚ) : Option ℕ :=
  (List.range 4).find? fun i =>
    decide (sums i ≤ r_xsec) && decide (r_xsec < sums (i + 1))

/-- Embedding of `ScatterAction::string_excitation_soft`: select the
subprocess by the weighted draw `u` over the cumulative array `sums`,
retry it up to `ntry_max` times, fail if `ntry` reached `ntry_max`,
otherwise adopt the collaborator's final state and apply the
unformed-incoming adjustment. -/
def string_excitation_soft (sums : ℕ → ℚ) (u : ℚ) (next : ℕ → ℕ → Bool)
    (final_state : List ParticleData) (in0 in1 : ParticleData)
    (time_of_execution : ℚ) : Except String (List ParticleData) :=
  match select_subprocess sums (sums 4 * u) with
  | none => Except.error "soft string subprocess is not specified."
  | some iproc =>
    if (soft_loop (next iproc) ntry_max 0 false).1 = ntry_max then
      Except.error "too many tries in string_excitation_soft()."
    else
      Except.ok (adjust_formation in0 in1 time_of_execution final_state)

/-- Once the success flag is set, the loop exits immediately. -/
theorem soft_loop_success (attempt : ℕ → Bool) (fuel ntry : ℕ) :
    soft_loop attempt fuel ntry true = (ntry, true) := by
  cases fuel <;> simp [soft_loop]

/-- If some attempt with index in `(ntry, ntry + fuel]` and at most
`ntry_max` succeeds, the loop stops at or before that index. -/
theorem soft_loop_stops_by (attempt : ℕ → Bool) (k : ℕ) (hk : attempt k = true) :
    ∀ fuel ntry, ntry < k → k ≤ ntry + fuel → k ≤ ntry_max →
      (soft_loop attempt fuel ntry false).1 ≤ k := by
  intro fuel
  induction fuel with
  | zero => intro ntry h1 h2 _; omega
  | succ n ih =>
    intro ntry h1 h2 h3
    rw [soft_loop, if_pos ⟨rfl, by omega⟩]
    by_cases hek : ntry + 1 = k
    · subst hek
      rw [hk, soft_loop_success]
    · have h1n : ntry + 1 < k := by omega
      cases hnext : attempt (ntry + 1) with
      | true => rw [soft_loop_success]; omega
      | false => exact ih (ntry + 1) h1n (by omega) h3

/-- If every attempt strictly inside the remaining window fails, the
loop runs until `ntry = ntry_max`. -/
theorem soft_loop_exhausts (attempt : ℕ → Bool) :
    ∀ fuel ntry, ntry + fuel = ntry_max →
      (∀ j, ntry < j → j < ntry_max → attempt j = false) →
      (soft_loop attempt fuel ntry false).1 = ntry_max := by
  intro fuel
  induction fuel with
  | zero => intro ntry h1 _; simpa [soft_loop] using h1
  | succ n ih =>
    intro ntry h1 hfail
    rw [soft_loop, if_pos ⟨rfl, by omega⟩]
    by_cases hek : ntry + 1 = ntry_max
    · have hn : n = 0 := by omega
      subst hn
      simp [soft_loop, hek]
    · rw [hfail (ntry + 1) (by omega) (by omega)]
      exact ih (ntry + 1) (by omega) fun j hj1 hj2 => hfail j (by omega) hj2

/-- C4 counterexample: a run whose first successful attempt is exactly
the 10000th — an attempt "among the first 10,000" — still raises the
fatal retry-bound error, because the source tests `ntry == ntry_max`
after the loop without checking the success flag.  The claim that every
run with a success among the first 10,000 attempts completes without
error is therefore false. -/
theorem string_excitation_soft_success_on_last_try_errors :
    string_excitation_soft (fun i => if i = 0 then 0 else 2) (1 / 2)
      (fun _ k => decide (k = 10000)) [] ⟨0, 1⟩ ⟨0, 1⟩ 0 =
      Except.error "too many tries in string_excitation_soft()." := by
  have hsel : select_subprocess (fun i : ℕ => if i = 0 then (0 : ℚ) else 2)
      ((fun i : ℕ => if i = 0 then (0 : ℚ) else 2) 4 * (1 / 2)) = some 0 := by
    norm_num [select_subprocess]
  have hex : (soft_loop ((fun (_ k : ℕ) => decide (k = 10000)) 0)
      ntry_max 0 false).1 = ntry_max := by
    refine soft_loop_exhausts _ ntry_max 0 (by omega) fun j hj1 hj2 => ?_
    simp only [decide_eq_false_iff_not]
    unfold ntry_max at hj2
    omega
  simp only [string_excitation_soft, hsel, hex, if_pos]

/-- C4 (amended): when the subprocess selection succeeds, the run
completes without error exactly when some attempt among the first 9,999
succeeds, in which case the collaborator's final state is adopted
(verbatim when neither incoming particle is still forming); if no
attempt among the first 9,999 succeeds — including the case where the
10,000th attempt would succeed — the fatal retry-bound error is
raised. -/
theorem string_excitation_soft_retry_bound (sums : ℕ → ℚ) (u : ℚ)
    (next : ℕ → ℕ → Bool) (final_state : List ParticleData)
    (in0 in1 : ParticleData) (T : ℚ) (iproc : ℕ)
    (hsel : select_subprocess sums (sums 4 * u) = some iproc) :
    ((∃ k, 1 ≤ k ∧ k < ntry_max ∧ next iproc k = true) →
      string_excitation_soft sums u next final_state in0 in1 T =
        Except.ok (adjust_formation in0 in1 T final_state)) ∧
    ((∀ k, 1 ≤ k → k < ntry_max → next iproc k = false) →
      string_excitation_soft sums u next final_state in0 in1 T =
        Except.error "too many tries in string_excitation_soft().") ∧
    (max in0.formation_time in1.formation_time ≤ T →
      (∃ k, 1 ≤ k ∧ k < ntry_max ∧ next iproc k = true) →
      string_excitation_soft sums u next final_state in0 in1 T =
        Except.ok final_state) := by
  have hok : (∃ k, 1 ≤ k ∧ k < ntry_max ∧ next iproc k = true) →
      string_excitation_soft sums u next final_state in0 in1 T =
        Except.ok (adjust_formation in0 in1 T final_state) := by
    rintro ⟨k, hk1, hk2, hk3⟩
    have hle := soft_loop_stops_by (next iproc) k hk3 ntry_max 0
      (by omega) (by omega) (by omega)
    rw [string_excitation_soft, hsel]
    simp only [if_neg (by omega : ¬(soft_loop (next iproc) ntry_max 0 false).1 = ntry_max)]
  refine ⟨hok, ?_, ?_⟩
  · intro hfail
    have hex := soft_loop_exhausts (next iproc) ntry_max 0 (by omega)
      fun j hj1 hj2 => hfail j (by omega) hj2
    rw [string_excitation_soft, hsel]
    simp only [if_pos hex]
  · intro hT hexists
    rw [hok hexists]
    rw [adjust_formation, if_neg (not_lt.2 hT)]

/-- Witness for C4 at a concrete input whose first attempt succeeds. -/
theorem string_excitation_soft_retry_bound_witness :
    string_excitation_soft (fun i => if i = 0 then 0 else 2) (1 / 2)
      (fun _ k => decide (k = 1)) [] ⟨0, 1⟩ ⟨0, 1⟩ 0 = Except.ok [] :=
  (string_excitation_soft_retry_bound (fun i => if i = 0 then 0 else 2) (1 / 2)
    (fun _ k => decide (k = 1)) [] ⟨0, 1⟩ ⟨0, 1⟩ 0 0
    (by norm_num [select_subprocess])).2.2 (by simp)
    ⟨1, le_refl 1, by norm_num [ntry_max], by decide⟩

/-! ## Baryon-antibaryon creation: `ScatterAction::NNbar_creation_cross_section`

The collaborator values `detailed_balance_factor_RR(...)`,
`ppbar_total(s)` and `ppbar_elastic(s)` are oracle parameters `dbf`,
`ppbar_tot`, `ppbar_el`; `type_N_mass` is the proton mass read from the
species catalog. -/

/-- PDG code of the proton. -/
def pdg_p : Int := 2212

/-- PDG code of the neutron. -/
def pdg_n : Int := 2112

/-- Embedding of `ScatterAction::NNbar_creation_cross_section`: empty
when `sqrts - 2 * type_N.mass() < 0`, otherwise two branches (proton
with antiproton, neutron with antineutron) sharing the weight
`dbf * std::max(0., ppbar_total(s) - ppbar_elastic(s))`. -/
def NNbar_creation_cross_section (type_N_mass sqrts dbf ppbar_tot ppbar_el : ℚ) :
    List CollisionBranch :=
  if sqrts - 2 * type_N_mass < 0 then []
  else
    [⟨dbf * max 0 (ppbar_tot - ppbar_el), ProcessType.TwoToTwo, [pdg_p, -pdg_p]⟩,
     ⟨dbf * max 0 (ppbar_tot - ppbar_el), ProcessType.TwoToTwo, [pdg_n, -pdg_n]⟩]

/-- C6 counterexample: at `sqrts` exactly equal to twice the nucleon
mass the source returns the two branches, not the empty list, so the
claim that the list is empty whenever `sqrts` does not exceed twice the
nucleon mass fails at the threshold. -/
theorem NNbar_creation_at_threshold_not_empty :
    ¬((2 : ℚ) * 1 < 2) ∧ NNbar_creation_cross_section 1 2 1 1 0 ≠ [] := by
  constructor
  · norm_num
  · have h2 : NNbar_creation_cross_section 1 2 1 1 0 =
        [⟨1 * max 0 (1 - 0), ProcessType.TwoToTwo, [pdg_p, -pdg_p]⟩,
         ⟨1 * max 0 (1 - 0), ProcessType.TwoToTwo, [pdg_n, -pdg_n]⟩] := by
      rw [NNbar_creation_cross_section, if_neg (by norm_num)]
    rw [h2]
    simp

/-- C6 (amended): the branch list is empty exactly when `sqrts` is
strictly below twice the nucleon mass; at or above the threshold it
holds the two degenerate branches, each weighted
`dbf * max 0 (ppbar_total - ppbar_elastic)`. -/
theorem NNbar_creation_branches (type_N_mass sqrts dbf ppbar_tot ppbar_el : ℚ) :
    (sqrts < 2 * type_N_mass →
      NNbar_creation_cross_section type_N_mass sqrts dbf ppbar_tot ppbar_el = []) ∧
    (2 * type_N_mass ≤ sqrts →
      NNbar_creation_cross_section type_N_mass sqrts dbf ppbar_tot ppbar_el =
        [⟨dbf * max 0 (ppbar_tot - ppbar_el), ProcessType.TwoToTwo, [pdg_p, -pdg_p]⟩,
         ⟨dbf * max 0 (ppbar_tot - ppbar_el), ProcessType.TwoToTwo,
           [pdg_n, -pdg_n]⟩]) := by
  constructor
  · intro h
    rw [NNbar_creation_cross_section, if_pos (by linarith)]
  · intro h
    rw [NNbar_creation_cross_section, if_neg (by linarith)]

/-- Witness for C6 at the threshold input of the counterexample. -/
theorem NNbar_creation_branches_witness :
    NNbar_creation_cross_section 1 2 1 1 0 =
      [⟨1 * max 0 (1 - 0), ProcessType.TwoToTwo, [pdg_p, -pdg_p]⟩,
       ⟨1 * max 0 (1 - 0), ProcessType.TwoToTwo, [pdg_n, -pdg_n]⟩] :=
  (NNbar_creation_branches 1 2 1 1 0).2 (by norm_num)

/-! ## Resonance formation: `ScatterAction::two_to_one_formation` and
`ScatterAction::resonance_cross_sections`

The collaborator calls `get_partial_in_width(srts, ...)` and
`spectral_function(srts)` are the oracles `inW` and `spF`, already
applied at the collision energy; `piO` is `M_PI`. -/

/-- Embedding of `ScatterAction::two_to_one_formation`: zero if charge
is not conserved, zero if baryon number is not conserved, zero if the
partial in-width is not positive, and otherwise the Breit-Wigner weight
`spinfactor * sym_factor * 2 * pi * pi / cm_momentum_sqr * spectral *
width * hbarc * hbarc / fm2_mb`. -/
def two_to_one_formation (piO : ℚ) (pa pb R : ParticleType)
    (inWidth spectral cm_momentum_sqr : ℚ) : ℚ :=
  if R.charge ≠ pa.charge + pb.charge then 0
  else if R.baryon_number ≠ pa.baryon_number + pb.baryon_number then 0
  else if inWidth ≤ 0 then 0
  else
    ((R.spin + 1 : ℚ) / (((pa.spin : ℚ) + 1) * ((pb.spin : ℚ) + 1))) *
      (if pa.pdg = pb.pdg then 2 else 1) * 2 * piO * piO / cm_momentum_sqr *
      spectral * inWidth * hbarc * hbarc / fm2_mb

/-- Embedding of `ScatterAction::resonance_cross_sections`: for every
catalog type, skip stable types and types equal to an unstable incoming
type, and add a branch exactly when the formation weight exceeds
`really_small`. -/
def resonance_cross_sections (piO : ℚ) (all_types : List ParticleType)
    (pa pb : ParticleType) (inW spF : ParticleType → ℚ)
    (p_cm_sqr : ℚ) : List CollisionBranch :=
  all_types.filterMap fun R =>
    if R.is_stable then none
    else if (!pa.is_stable && R.pdg == pa.pdg) ||
            (!pb.is_stable && R.pdg == pb.pdg) then none
    else if really_small < two_to_one_formation piO pa pb R (inW R) (spF R) p_cm_sqr
    then some ⟨two_to_one_formation piO pa pb R (inW R) (spF R) p_cm_sqr,
      ProcessType.TwoToOne, [R.pdg]⟩
    else none

/-- C7: the resonance-formation weight is exactly zero whenever charge
or baryon number is not conserved, and every branch that
`resonance_cross_sections` registers carries a weight exceeding the
`really_small = 1e-6` floor, that weight being the formation weight of
some catalog resonance. -/
theorem resonance_conservation_and_floor (piO : ℚ)
    (all_types : List ParticleType) (pa pb R : ParticleType)
    (inW spF : ParticleType → ℚ) (inWidth spectral p_cm_sqr : ℚ) :
    (R.charge ≠ pa.charge + pb.charge ∨
      R.baryon_number ≠ pa.baryon_number + pb.baryon_number →
      two_to_one_formation piO pa pb R inWidth spectral p_cm_sqr = 0) ∧
    (∀ b ∈ resonance_cross_sections piO all_types pa pb inW spF p_cm_sqr,
      really_small < b.weight ∧
      ∃ R2 ∈ all_types,
        b.weight = two_to_one_formation piO pa pb R2 (inW R2) (spF R2) p_cm_sqr) := by
  constructor
  · rintro (hq | hb)
    · rw [two_to_one_formation, if_pos hq]
    · rw [two_to_one_formation]
      by_cases hq : R.charge ≠ pa.charge + pb.charge
      · rw [if_pos hq]
      · rw [if_neg hq, if_pos hb]
  · intro b hb
    simp only [resonance_cross_sections, List.mem_filterMap] at hb
    obtain ⟨R2, hR2, hsome⟩ := hb
    by_cases h1 : R2.is_stable = true
    · rw [if_pos h1] at hsome
      exact absurd hsome (by simp)
    · rw [if_neg h1] at hsome
      by_cases h2 : (!pa.is_stable && R2.pdg == pa.pdg ||
          !pb.is_stable && R2.pdg == pb.pdg) = true
      · rw [if_pos h2] at hsome
        exact absurd hsome (by simp)
      · rw [if_neg h2] at hsome
        by_cases h3 : really_small <
            two_to_one_formation piO pa pb R2 (inW R2) (spF R2) p_cm_sqr
        · rw [if_pos h3] at hsome
          obtain rfl := Option.some.inj hsome
          exact ⟨h3, R2, hR2, rfl⟩
        · rw [if_neg h3] at hsome
          exact absurd hsome (by simp)

/-- Witness for C7: a concrete charge-violating resonance gets weight
exactly zero. -/
theorem resonance_conservation_and_floor_witness :
    two_to_one_formation 3 ⟨true, false, 1, 2212, 1, 1, 1, true⟩
      ⟨true, false, 1, 2212, 1, 1, 1, true⟩
      ⟨false, false, 1, 2224, 3, 2, 3, false⟩ 1 1 1 = 0 :=
  (resonance_conservation_and_floor 3 [] ⟨true, false, 1, 2212, 1, 1, 1, true⟩
    ⟨true, false, 1, 2212, 1, 1, 1, true⟩
    ⟨false, false, 1, 2224, 3, 2, 3, false⟩ (fun _ => 1) (fun _ => 1)
    1 1 1).1 (Or.inl (by decide))

/-! ## Photon specialization: `ScatterActionPhoton::cross_section` -/

/-- Embedding of `ScatterActionPhoton::cross_section`: the photon
cross-section alone when it is below `really_small`, and the sum
`total_cross_section_ + cross_section_photons_` otherwise. -/
def photon_cross_section (total_cross_section cross_section_photons : ℚ) : ℚ :=
  if cross_section_photons < really_small then cross_section_photons
  else total_cross_section + cross_section_photons

/-- C10: the returned value is the photon cross-section alone below the
`really_small` floor and the sum of the total and photon cross-sections
otherwise; in both cases the photon contribution is an additive part of
the result. -/
theorem photon_cross_section_cases (total_cross_section cross_section_photons : ℚ) :
    (cross_section_photons < really_small →
      photon_cross_section total_cross_section cross_section_photons =
        cross_section_photons) ∧
    (really_small ≤ cross_section_photons →
      photon_cross_section total_cross_section cross_section_photons =
        total_cross_section + cross_section_photons) ∧
    photon_cross_section total_cross_section cross_section_photons =
      (if cross_section_photons < really_small then 0 else total_cross_section) +
        cross_section_photons := by
  refine ⟨fun h => ?_, fun h => ?_, ?_⟩
  · rw [photon_cross_section, if_pos h]
  · rw [photon_cross_section, if_neg (not_lt.2 h)]
  · rw [photon_cross_section]
    split_ifs with h
    · ring
    · rfl

/-- Witness for C10 at concrete inputs on both sides of the floor. -/
theorem photon_cross_section_cases_witness :
    photon_cross_section 5 0 = 0 ∧ photon_cross_section 5 1 = 5 + 1 :=
  ⟨(photon_cross_section_cases 5 0).1 (by norm_num [really_small]),
   (photon_cross_section_cases 5 1).2.1 (by norm_num [really_small])⟩

end Smash
